import Mathlib

/-!
Verification of the apidoc-studio core: the OpenAPI document model and
request-construction engine (spec parsing/validation, `$ref` resolution,
example-body synthesis, URL building, request execution) as implemented in
`TryItConsole`, `FileUpload.parseSpec` and `YamlEditor.validateSpec`.

JavaScript values flowing through the code are modelled by a JSON value
type `Json`; the JavaScript `undefined` that arises from a missing object
field is modelled by `Option Json` (with `none` for `undefined`).
Numbers are modelled as rationals; every numeric literal appearing in the
verified scenarios is an integer, where rationals and IEEE doubles agree.
-/

inductive Json where
  | null
  | bool (b : Bool)
  | num (q : Rat)
  | str (s : String)
  | arr (items : List Json)
  | obj (fields : List (String × Json))
  deriving Repr

namespace Json

/-- JavaScript truthiness of a defined value: `null`, `false`, `0` and the
empty string are falsy; every object and array is truthy. -/
def truthy : Json → Bool
  | .null => false
  | .bool b => b
  | .num q => !(q == 0)
  | .str s => !(s == "")
  | .arr _ => true
  | .obj _ => true

end Json

/-- Truthiness of a possibly-`undefined` value (`undefined` is falsy). -/
def truthyO : Option Json → Bool
  | none => false
  | some j => j.truthy

/-- JavaScript property access `v[k]` as it behaves on the values reaching
the generator: a missing field, or access on a non-object, yields
`undefined` (`none`). -/
def getField : Json → String → Option Json
  | .obj kvs, k => (kvs.find? (fun kv => kv.1 == k)).map (·.2)
  | _, _ => none

/-- Optional chaining `o?.k` on a possibly-`undefined` base. -/
def optChain (o : Option Json) (k : String) : Option Json :=
  o.bind (fun j => getField j k)

/-- JavaScript `a || b` on possibly-`undefined` operands: the first operand
if it is truthy, otherwise the second. -/
def jsOrO (a b : Option Json) : Option Json :=
  if truthyO a then a else b

/-- JavaScript strict equality `v === "s"` for a possibly-`undefined`
left-hand side against a string literal. -/
def strictEqStr (o : Option Json) (s : String) : Bool :=
  match o with
  | some (.str t) => t == s
  | _ => false

/-- JavaScript indexing `v[0]` on a truthy value: first element of an
array, first character of a string, the `"0"` property of an object,
`undefined` otherwise. -/
def jsIndexZero : Json → Option Json
  | .arr (x :: _) => some x
  | .arr [] => none
  | .str s =>
    match s.toList with
    | c :: _ => some (.str (String.mk [c]))
    | [] => none
  | .obj kvs => (kvs.find? (fun kv => kv.1 == "0")).map (·.2)
  | _ => none

/-- JavaScript object assignment `o[k] = v` on an assoc-list model of an
object: overwrite in place when the key exists, append otherwise. -/
def jsSet (kvs : List (String × Option Json)) (k : String) (v : Option Json) :
    List (String × Option Json) :=
  if kvs.any (fun kv => kv.1 == k) then
    kvs.map (fun kv => if kv.1 == k then (k, v) else kv)
  else kvs ++ [(k, v)]

/-- `Object.entries` on the values the generator feeds it (a truthy
`properties` value): fields of an object in declaration order; other
values contribute no string-keyed own enumerable properties relevant
here, except arrays and strings, modelled empty-safely as their indexed
elements. -/
def jsEntries : Json → List (String × Json)
  | .obj kvs => kvs
  | .arr xs => (List.range xs.length).zip xs |>.map (fun p => (toString p.1, p.2))
  | .str s => (List.range s.length).zip (s.toList.map (fun c => Json.str (String.mk [c])))
      |>.map (fun p => (toString p.1, p.2))
  | _ => []

/-! ### `JSON.stringify(value, null, 2)` -/

/-- Decimal rendering of the fractional part of a rational, matching how
JavaScript prints the terminating decimals that arise in this
development (all numbers in the verified scenarios are integers). -/
def fracDigits : Nat → Nat → Nat → List Char
  | 0, _, _ => []
  | _ + 1, _, 0 => []
  | fuel + 1, den, rem =>
    let rem10 := rem * 10
    (Nat.digits 10 (rem10 / den)).reverse.map (fun d => Char.ofNat (48 + d)) ++
      fracDigits fuel den (rem10 % den)

/-- JavaScript number-to-string for the rationals used here: integers
print with no decimal point (`1.0` prints as `"1"`). -/
def numToString (q : Rat) : String :=
  let sign := if q < 0 then "-" else ""
  let n := q.num.natAbs
  let d := q.den
  let intPart := toString (n / d)
  let frac := fracDigits 40 d (n % d)
  if frac.isEmpty then sign ++ intPart
  else sign ++ intPart ++ "." ++ String.mk frac

/-- One JSON string-escape step, as `JSON.stringify` performs it. -/
def jsonEscapeChar (c : Char) : List Char :=
  if c = '"' then ['\\', '"']
  else if c = '\\' then ['\\', '\\']
  else if c = '\n' then ['\\', 'n']
  else if c = '\r' then ['\\', 'r']
  else if c = '\t' then ['\\', 't']
  else if c = Char.ofNat 8 then ['\\', 'b']
  else if c = Char.ofNat 12 then ['\\', 'f']
  else if c.toNat < 32 then
    ['\\', 'u', '0', '0',
     (if c.toNat / 16 < 10 then Char.ofNat (48 + c.toNat / 16) else Char.ofNat (87 + c.toNat / 16)),
     (if c.toNat % 16 < 10 then Char.ofNat (48 + c.toNat % 16) else Char.ofNat (87 + c.toNat % 16))]
  else [c]

/-- A JSON string literal with surrounding quotes. -/
def jsonQuote (s : String) : String :=
  "\"" ++ String.mk (s.toList.flatMap jsonEscapeChar) ++ "\""

/-- Two-space indentation at a given nesting level. -/
def mkIndent (lvl : Nat) : String :=
  String.mk (List.replicate (2 * lvl) ' ')

mutual

/-- `JSON.stringify(v, null, 2)` at nesting level `lvl`. -/
def stringifyJson : Json → Nat → String
  | .null, _ => "null"
  | .bool true, _ => "true"
  | .bool false, _ => "false"
  | .num q, _ => numToString q
  | .str s, _ => jsonQuote s
  | .arr [], _ => "[]"
  | .arr (x :: xs), lvl =>
    "[\n" ++ stringifyArrItems (x :: xs) (lvl + 1) ++ "\n" ++ mkIndent lvl ++ "]"
  | .obj [], _ => "{}"
  | .obj (kv :: kvs), lvl =>
    "\x7b\n" ++ stringifyObjItems (kv :: kvs) (lvl + 1) ++ "\n" ++ mkIndent lvl ++ "\x7d"

/-- The comma-and-newline separated element lines of a non-empty array. -/
def stringifyArrItems : List Json → Nat → String
  | [], _ => ""
  | [x], lvl => mkIndent lvl ++ stringifyJson x lvl
  | x :: y :: xs, lvl =>
    mkIndent lvl ++ stringifyJson x lvl ++ ",\n" ++ stringifyArrItems (y :: xs) lvl

/-- The comma-and-newline separated member lines of a non-empty object. -/
def stringifyObjItems : List (String × Json) → Nat → String
  | [], _ => ""
  | [(k, v)], lvl => mkIndent lvl ++ jsonQuote k ++ ": " ++ stringifyJson v lvl
  | (k, v) :: kv :: kvs, lvl =>
    mkIndent lvl ++ jsonQuote k ++ ": " ++ stringifyJson v lvl ++ ",\n" ++
      stringifyObjItems (kv :: kvs) lvl

end

/-! ### Example synthesis (`TryItConsole` request-body generation)

The effect that auto-loads the request body: starting from
`currentOperation.requestBody?.content?.['application/json']?.schema` it
returns the text assigned to the request-body draft. `now` stands for
`new Date().toISOString()`. -/

/-- The per-property leaf rule of the generator (`Object.entries(...).forEach`
body); `none` is a JavaScript `undefined` assignment, which
`JSON.stringify` later drops. -/
def samplePropValue (prop : Json) (now : String) : Option Json :=
  if (getField prop "example").isSome then
    getField prop "example"
  else if strictEqStr (getField prop "type") "string" then
    if strictEqStr (getField prop "format") "email" then some (.str "user@example.com")
    else if strictEqStr (getField prop "format") "uuid" then
      some (.str "123e4567-e89b-12d3-a456-426614174000")
    else if strictEqStr (getField prop "format") "date-time" then some (.str now)
    else if strictEqStr (getField prop "format") "uri" then
      some (.str "https://example.com/image.jpg")
    else if truthyO (getField prop "enum") then
      (getField prop "enum").bind jsIndexZero
    else if truthyO (getField prop "minLength") then some (.str "sample text")
    else some (.str "string")
  else if strictEqStr (getField prop "type") "number" ||
      strictEqStr (getField prop "type") "integer" then
    jsOrO (getField prop "minimum")
      (jsOrO (getField prop "example")
        (some (.num (if strictEqStr (getField prop "type") "integer" then 1 else 1))))
  else if strictEqStr (getField prop "type") "boolean" then some (.bool true)
  else if strictEqStr (getField prop "type") "array" then some (.arr [])
  else if strictEqStr (getField prop "type") "object" then some (.obj [])
  else some .null

/-- The `sampleBody` object accumulated by the `forEach` loop over
`Object.entries(actualSchema.properties)`. -/
def sampleBodyOf (properties : Json) (now : String) : List (String × Option Json) :=
  (jsEntries properties).foldl
    (fun acc kp => jsSet acc kp.1 (samplePropValue kp.2 now)) []

/-- Keys with defined values, as serialized by `JSON.stringify` (keys
assigned `undefined` are dropped). -/
def definedFields (kvs : List (String × Option Json)) : List (String × Json) :=
  kvs.filterMap (fun kv => kv.2.map (fun v => (kv.1, v)))

/-- JavaScript `s.split('/')`: groups of characters between slashes
(splitting `""` gives `[""]`, and a trailing slash yields a final empty
group), so `.pop()` is the last group. -/
def splitOnSlash : List Char → List (List Char)
  | [] => [[]]
  | c :: cs =>
    if c = '/' then [] :: splitOnSlash cs
    else
      match splitOnSlash cs with
      | [] => [[c]]
      | g :: gs => (c :: g) :: gs

/-- The request-body schema of an operation:
`currentOperation.requestBody?.content?.['application/json']?.schema`. -/
def requestBodySchemaOf (op : Json) : Option Json :=
  optChain (optChain (getField op "requestBody") "content") "application/json"
    |>.bind (fun c => getField c "schema")

/-- The generated request-body text for a selected operation, `none`
modelling the `TypeError` the source throws when a truthy non-string
`$ref` is split. Mirrors `TryItConsole`: falsy schema ↦ `"{}"`; truthy
schema `example` ↦ its serialization; a `$ref` (with a truthy
`spec.components.schemas`) ↦ single-level lookup of the last `/`-segment;
a truthy `properties` ↦ the sample body; anything else ↦ `"{}"`. -/
def generateRequestBody (spec op : Json) (now : String) : Option String :=
  let rbs := requestBodySchemaOf op
  if ¬ truthyO rbs then some "{}"
  else
    match rbs with
    | none => some "{}"
    | some s =>
      if truthyO (getField s "example") then
        match getField s "example" with
        | some ex => some (stringifyJson ex 0)
        | none => some "{}"
      else
        let schemasVal := optChain (getField spec "components") "schemas"
        if truthyO (getField s "$ref") && truthyO schemasVal then
          match getField s "$ref", schemasVal with
          | some (.str r), some schemas =>
            let schemaName := String.mk ((splitOnSlash r.toList).getLastD [])
            let actualSchema := getField schemas schemaName
            if truthyO (optChain actualSchema "properties") then
              match optChain actualSchema "properties" with
              | some props =>
                some (stringifyJson (.obj (definedFields (sampleBodyOf props now))) 0)
              | none => some "{}"
            else some "{}"
          | _, _ => none
        else
          if truthyO (getField s "properties") then
            match getField s "properties" with
            | some props =>
              some (stringifyJson (.obj (definedFields (sampleBodyOf props now))) 0)
            | none => some "{}"
          else some "{}"

/-! ### URL building and request execution (`executeRequest`) -/

/-- The characters `encodeURIComponent` leaves unescaped:
`A-Z a-z 0-9 - _ . ! ~ * ' ( )`. -/
def uriUnreserved (c : Char) : Bool :=
  c.isAlpha || c.isDigit ||
    c = '-' || c = '_' || c = '.' || c = '!' || c = '~' || c = '*' ||
    c = '\'' || c = '(' || c = ')'

/-- UTF-8 bytes of a code point. -/
def utf8Bytes (n : Nat) : List Nat :=
  if n < 0x80 then [n]
  else if n < 0x800 then [0xC0 + n / 64, 0x80 + n % 64]
  else if n < 0x10000 then [0xE0 + n / 4096, 0x80 + n / 64 % 64, 0x80 + n % 64]
  else [0xF0 + n / 262144, 0x80 + n / 4096 % 64, 0x80 + n / 64 % 64, 0x80 + n % 64]

/-- Uppercase hexadecimal digit. -/
def hexDigitChar (n : Nat) : Char :=
  if n < 10 then Char.ofNat (48 + n) else Char.ofNat (55 + n)

/-- `%XX` escape of one byte. -/
def pctByte (b : Nat) : List Char :=
  ['%', hexDigitChar (b / 16), hexDigitChar (b % 16)]

/-- `encodeURIComponent`, over character lists. -/
def encodeURIComponent (s : List Char) : List Char :=
  s.flatMap (fun c =>
    if uriUnreserved c then [c] else (utf8Bytes c.toNat).flatMap pctByte)

/-- JavaScript `String.prototype.replace` with a string pattern: replace
only the first occurrence (the replacement text produced by
`encodeURIComponent` never contains `$`, so substitution patterns do not
arise). -/
def jsReplaceFirst : List Char → List Char → List Char → List Char
  | [], pat, rep => if pat.isPrefixOf ([] : List Char) then rep else []
  | c :: cs, pat, rep =>
    if pat.isPrefixOf (c :: cs) then rep ++ (c :: cs).drop pat.length
    else c :: jsReplaceFirst cs pat rep

/-- A row of the console's parameter table (`Parameter` in the source);
`type` is one of `"header"`, `"query"`, `"path"`. -/
structure Param where
  name : String
  value : String
  type : String
  deriving Repr, DecidableEq

/-- `selectedServer.replace(/\/$/, '')`: strip one trailing slash. -/
def stripTrailingSlash (s : List Char) : List Char :=
  if s.getLast? = some '/' then s.dropLast else s

/-- The URL after path-parameter substitution: server (trailing slash
stripped) concatenated with the path template, then for each
path-location parameter the first occurrence of `{name}` replaced by the
URL-encoded value. -/
def buildPathUrl (server path : String) (parameters : List Param) : List Char :=
  let base := stripTrailingSlash server.toList ++ path.toList
  (parameters.filter (fun p => p.type == "path")).foldl
    (fun u p =>
      jsReplaceFirst u ('{' :: (p.name.toList ++ ['}'])) (encodeURIComponent p.value.toList))
    base

/-- The characters the `application/x-www-form-urlencoded` serializer
(`URLSearchParams.toString`) leaves unescaped. -/
def formUnreserved (c : Char) : Bool :=
  c.isAlpha || c.isDigit || c = '*' || c = '-' || c = '.' || c = '_'

/-- One form-urlencoded token: space becomes `+`, unreserved characters
stay, the rest are percent-escaped UTF-8 bytes. -/
def formEncode (s : List Char) : List Char :=
  s.flatMap (fun c =>
    if c = ' ' then ['+']
    else if formUnreserved c then [c]
    else (utf8Bytes c.toNat).flatMap pctByte)

/-- `URLSearchParams` serialization of the appended query parameters. -/
def queryString (qs : List Param) : List Char :=
  match qs.map (fun p => formEncode p.name.toList ++ '=' :: formEncode p.value.toList) with
  | [] => []
  | part :: parts => parts.foldl (fun acc q => acc ++ '&' :: q) part

/-- The full request URL built by `executeRequest`: path substitution,
then `?query` appended when at least one query parameter has truthy name
and value. -/
def buildFullUrl (server path : String) (parameters : List Param) : List Char :=
  let url := buildPathUrl server path parameters
  let qs := parameters.filter (fun p => p.type == "query" && p.name ≠ "" && p.value ≠ "")
  if qs.isEmpty then url else url ++ '?' :: queryString qs

/-- Header-object construction: `Content-Type: application/json` first,
then each header-location parameter with truthy name and value assigned
(JavaScript object semantics: same exact key overwrites). -/
def jsSetStr (kvs : List (String × String)) (k v : String) : List (String × String) :=
  if kvs.any (fun kv => kv.1 == k) then
    kvs.map (fun kv => if kv.1 == k then (k, v) else kv)
  else kvs ++ [(k, v)]

/-- The request headers assembled by `executeRequest`. -/
def buildHeaders (parameters : List Param) : List (String × String) :=
  (parameters.filter (fun p => p.type == "header" && p.name ≠ "" && p.value ≠ "")).foldl
    (fun acc p => jsSetStr acc p.name p.value) [("Content-Type", "application/json")]

/-- The request handed to `fetch`. -/
structure HttpRequest where
  url : List Char
  method : String
  headers : List (String × String)
  body : Option String
  deriving Repr, DecidableEq

/-- The normalized response (`ApiResponse` in the source). Times are
milliseconds as integers. -/
structure ApiResponse where
  status : Nat
  statusText : String
  headers : List (String × String)
  body : String
  duration : Int
  deriving Repr, DecidableEq

/-- The console session's state relevant to `executeRequest`. -/
structure SessionState where
  selectedServer : String
  selectedPath : String
  selectedMethod : String
  parameters : List Param
  requestBody : String
  response : Option ApiResponse
  loading : Bool

/-- The instants at which `executeRequest`'s run touches the clock or the
network: `tStart` is the `Date.now()` at entry, `tFetchResolved` the
`Date.now()` taken immediately after `await fetch` resolves,
`tBodyDecoded` the wall-clock time at which the response body finishes
decoding (an instant the source never reads), `tCatch` the `Date.now()`
taken inside the `catch` branch. -/
structure Timeline where
  tStart : Int
  tFetchResolved : Int
  tBodyDecoded : Int
  tCatch : Int

/-- What the transport returns: a thrown failure (with the message of the
`Error`, or `none` when a non-`Error` was thrown), or a completed HTTP
exchange. `jsonResult`/`textResult` are the outcomes of
`response.json()` and `response.text()` (`.error` for a rejection). -/
inductive FetchOutcome where
  | failure (message : Option String)
  | success (status : Nat) (statusText : String) (headers : List (String × String))
      (jsonResult : Except Unit Json) (textResult : Except Unit String)

/-- Case-insensitive header lookup, as `Headers.get` performs it. -/
def headerGet (headers : List (String × String)) (key : String) : Option String :=
  (headers.find? (fun kv => kv.1.toLower == key.toLower)).map (·.2)

/-- Substring test (`String.prototype.includes`). -/
def includesSub : List Char → List Char → Bool
  | [], pat => pat.isEmpty
  | c :: t, pat => pat.isPrefixOf (c :: t) || includesSub t pat

/-- Body decoding: when the response's `content-type` mentions
`application/json`, pretty-print the parsed JSON, with a fixed note when
parsing rejects; otherwise the raw text (same note if `text()`
rejects). -/
def decodeBody (headers : List (String × String))
    (jsonResult : Except Unit Json) (textResult : Except Unit String) : String :=
  let contentType := (headerGet headers "content-type").getD ""
  if includesSub contentType.toList "application/json".toList then
    match jsonResult with
    | .ok v => stringifyJson v 0
    | .error _ => "Failed to parse response body"
  else
    match textResult with
    | .ok s => s
    | .error _ => "Failed to parse response body"

/-- `executeRequest`: the guard rejects an empty server, path or method
before any effect; otherwise the request is built and issued, and the
outcome — completed exchange or transport failure — is normalized into an
`ApiResponse` stored in the session. The second component is the request
handed to `fetch` (`none` when no network call happens). -/
def executeRequest (st : SessionState) (outcome : FetchOutcome) (tl : Timeline) :
    SessionState × Option HttpRequest :=
  if st.selectedServer = "" ∨ st.selectedPath = "" ∨ st.selectedMethod = "" then
    (st, none)
  else
    let url := buildFullUrl st.selectedServer st.selectedPath st.parameters
    let req : HttpRequest :=
      { url := url
        method := st.selectedMethod.toUpper
        headers := buildHeaders st.parameters
        body :=
          if (["post", "put", "patch"].contains st.selectedMethod.toLower) &&
              st.requestBody.trim ≠ "" then
            some st.requestBody
          else none }
    let record : ApiResponse :=
      match outcome with
      | .success status statusText hdrs jsonResult textResult =>
        { status := status
          statusText := statusText
          headers := hdrs
          body := decodeBody hdrs jsonResult textResult
          duration := tl.tFetchResolved - tl.tStart }
      | .failure message =>
        { status := 0
          statusText := "Network Error"
          headers := []
          body := message.getD "Unknown error occurred"
          duration := tl.tCatch - tl.tStart }
    ({ st with response := some record, loading := false }, some req)

/-! ### Spec parsing and validation (`FileUpload.parseSpec`,
`YamlEditor.validateSpec`) and the viewer state they feed.

The third-party syntactic parsers (`JSON.parse`, `yaml.load`) are
external collaborators; their combined outcome is an `Option Json`
(`none` when both throw). -/

/-- `typeof v === 'object'` (true for objects, arrays and `null`). -/
def jsTypeofObject : Json → Bool
  | .obj _ => true
  | .arr _ => true
  | .null => true
  | _ => false

/-- The fatal defects of `FileUpload.parseSpec`. -/
inductive ParseError where
  | syntaxError
  | notAnObject
  | missingVersion
  deriving Repr, DecidableEq

/-- `FileUpload.parseSpec` over the syntactic outcome: both parsers threw
↦ syntax error; a falsy or non-object value ↦ not-an-object; neither
`openapi` nor `swagger` truthy ↦ missing version marker; otherwise the
parsed document. -/
def parseSpec (syntactic : Option Json) : Except ParseError Json :=
  match syntactic with
  | none => .error .syntaxError
  | some parsed =>
    if ¬ (parsed.truthy && jsTypeofObject parsed) then .error .notAnObject
    else if ¬ (truthyO (getField parsed "openapi") || truthyO (getField parsed "swagger")) then
      .error .missingVersion
    else .ok parsed

/-- One entry of `YamlEditor.validateSpec`'s report. -/
structure ValidationError where
  line : Nat
  message : String
  severity : String
  deriving Repr, DecidableEq

/-- The result record of `YamlEditor.validateSpec`. -/
structure ValidationResult where
  isValid : Bool
  errors : List ValidationError
  parsed : Option Json
  deriving Repr

/-- JavaScript `String.prototype.trim` for the ASCII whitespace
occurring here. -/
def jsTrim (s : String) : String :=
  String.mk (((s.toList.dropWhile Char.isWhitespace).reverse.dropWhile
    Char.isWhitespace).reverse)

/-- `YamlEditor.validateSpec`: empty text is vacuously valid; a
syntactically unparsable text is one fatal error; otherwise the marker
check is fatal while the `info`/`paths` checks are errors or warnings,
and the result is valid exactly when no `error`-severity entry exists. -/
def validateSpec (content : String) (syntactic : Option Json) : ValidationResult :=
  if jsTrim content = "" then ⟨true, [], none⟩
  else
    match syntactic with
    | none => ⟨false, [⟨1, "Invalid YAML or JSON format", "error"⟩], none⟩
    | some parsed =>
      let errors : List ValidationError :=
        if parsed.truthy && jsTypeofObject parsed then
          (if ¬ (truthyO (getField parsed "openapi") || truthyO (getField parsed "swagger"))
            then [⟨1, "Missing required field: openapi or swagger", "error"⟩] else [])
          ++ (if ¬ truthyO (getField parsed "info") then
                [⟨1, "Missing required field: info", "error"⟩]
              else
                (if ¬ truthyO (optChain (getField parsed "info") "title") then
                  [⟨1, "Missing required field: info.title", "warning"⟩] else [])
                ++ (if ¬ truthyO (optChain (getField parsed "info") "version") then
                  [⟨1, "Missing required field: info.version", "warning"⟩] else []))
          ++ (if ¬ (truthyO (getField parsed "paths") || truthyO (getField parsed "components"))
                then [⟨1, "API should have either paths or components", "warning"⟩] else [])
        else []
      ⟨¬ errors.any (fun e => e.severity == "error"), errors, some parsed⟩

/-- The viewer's state (`ApiDocViewer`): the spec text handed to the
presentation layer and the parsed `SpecDocument`. -/
structure AppState where
  spec : String
  parsedSpec : Option Json
  activeTab : String

/-- `handleSpecLoad`: commit a successfully loaded spec and switch tabs. -/
def handleSpecLoad (_st : AppState) (newSpec : String) (parsed : Json) : AppState :=
  ⟨newSpec, some parsed, "viewer"⟩

/-- `handleSpecChange`: commit an edited spec. -/
def handleSpecChange (st : AppState) (newSpec : String) (parsed : Json) : AppState :=
  { st with spec := newSpec, parsedSpec := some parsed }

/-- `FileUpload.handleFileUpload` on the loaded file's text: parse, and
commit via `onSpecLoad` only on success (the failure branch only toasts). -/
def handleFileUpload (st : AppState) (content : String) (syntactic : Option Json) : AppState :=
  match parseSpec syntactic with
  | .ok parsed => handleSpecLoad st content parsed
  | .error _ => st

/-- The editor's local state (`YamlEditor`). -/
structure EditorState where
  value : String
  validationErrors : List ValidationError
  isValid : Bool

/-- `YamlEditor.handleEditorChange`: always update the editor buffer and
its validation report, but call `onChange` (committing to the viewer
state) only when the validation succeeded with a truthy document. -/
def handleEditorChange (app : AppState) (_ed : EditorState) (newValue : String)
    (syntactic : Option Json) : AppState × EditorState :=
  let validation := validateSpec newValue syntactic
  let ed' : EditorState := ⟨newValue, validation.errors, validation.isValid⟩
  if validation.isValid then
    match validation.parsed with
    | some parsed =>
      if parsed.truthy then (handleSpecChange app newValue parsed, ed') else (app, ed')
    | none => (app, ed')
  else (app, ed')

/-! ### Structured path templates, for reasoning about placeholder
substitution.

A path template like `/pet/{petId}` is an interleaving of literal chunks
and `{name}` placeholders; `renderTemplate` maps that structure to the
raw string the source code manipulates. -/

inductive TemplatePart where
  | lit (s : List Char)
  | param (name : List Char)
  deriving Repr, DecidableEq

/-- The raw text of a structured template. -/
def renderTemplate : List TemplatePart → List Char
  | [] => []
  | .lit s :: rest => s ++ renderTemplate rest
  | .param n :: rest => '{' :: (n ++ '}' :: renderTemplate rest)

/-- No brace characters occur. -/
def braceFreeB (s : List Char) : Bool :=
  s.all (fun c => !(c == '{') && !(c == '}'))

/-- A well-formed template: literal chunks and placeholder names are
brace-free, so braces occur exactly at placeholder boundaries. -/
def partsWF : List TemplatePart → Bool
  | [] => true
  | .lit s :: r => braceFreeB s && partsWF r
  | .param n :: r => braceFreeB n && partsWF r

/-- Replace the first `{n}` placeholder by a literal chunk `rep`. -/
def substFirstParam (n rep : List Char) : List TemplatePart → List TemplatePart
  | [] => []
  | .lit s :: rest => .lit s :: substFirstParam n rep rest
  | .param m :: rest =>
    if m = n then .lit rep :: rest else .param m :: substFirstParam n rep rest

/-- The structured counterpart of the source's substitution loop: for each
path parameter in order, replace the first matching placeholder by the
URL-encoded value. -/
def substAllParams (ps : List Param) (parts : List TemplatePart) : List TemplatePart :=
  ps.foldl
    (fun acc p => substFirstParam p.name.toList (encodeURIComponent p.value.toList) acc)
    parts

/-- The placeholder names of a template, in order. -/
def paramNames : List TemplatePart → List (List Char)
  | [] => []
  | .lit _ :: r => paramNames r
  | .param n :: r => n :: paramNames r

/-- Brace-freeness as a predicate. -/
def BraceFree (s : List Char) : Prop := ∀ c ∈ s, c ≠ '{' ∧ c ≠ '}'

theorem braceFreeB_iff (s : List Char) : braceFreeB s = true ↔ BraceFree s := by
  simp [braceFreeB, BraceFree, List.all_eq_true]

theorem char_toNat_lt_unicode (c : Char) : c.toNat < 1114112 := by
  have h := c.valid
  rcases h with h | ⟨_, h2⟩
  · change c.val.toNat < _ at h
    change c.val.toNat < _
    omega
  · change c.val.toNat < _ at h2
    change c.val.toNat < _
    omega

theorem utf8Bytes_lt (n : Nat) (hn : n < 1114112) : ∀ b ∈ utf8Bytes n, b < 256 := by
  unfold utf8Bytes
  split_ifs with h1 h2 h3 <;> intro b hb <;> simp at hb <;> omega

theorem hexDigitChar_ne_brace : ∀ k, k < 16 → hexDigitChar k ≠ '{' ∧ hexDigitChar k ≠ '}' := by
  decide

theorem pctByte_braceFree (b : Nat) (hb : b < 256) : ∀ c ∈ pctByte b, c ≠ '{' ∧ c ≠ '}' := by
  intro c hc
  simp [pctByte] at hc
  rcases hc with rfl | rfl | rfl
  · exact ⟨by decide, by decide⟩
  · exact hexDigitChar_ne_brace _ (by omega)
  · exact hexDigitChar_ne_brace _ (by omega)

theorem encodeURIComponent_braceFree (s : List Char) : BraceFree (encodeURIComponent s) := by
  intro c hc
  simp only [encodeURIComponent, List.mem_flatMap] at hc
  obtain ⟨a, _, hc⟩ := hc
  by_cases h : uriUnreserved a
  · simp [h] at hc
    subst hc
    constructor <;> rintro rfl <;> exact absurd h (by decide)
  · simp [h] at hc
    obtain ⟨b, hb, hc⟩ := hc
    exact pctByte_braceFree b (utf8Bytes_lt _ (char_toNat_lt_unicode a) b hb) c hc

theorem jsReplaceFirst_skip (ph : Char) (pt rep : List Char) :
    ∀ (l t : List Char), (∀ c ∈ l, c ≠ ph) →
      jsReplaceFirst (l ++ t) (ph :: pt) rep = l ++ jsReplaceFirst t (ph :: pt) rep := by
  intro l
  induction l with
  | nil => intro t _; simp
  | cons c l ih =>
    intro t hl
    have hc : c ≠ ph := hl c (by simp)
    have hnp : (ph :: pt).isPrefixOf (c :: (l ++ t)) = false := by
      simp [List.isPrefixOf]
      intro h
      exact absurd h.symm hc
    rw [List.cons_append, jsReplaceFirst, hnp]
    simp only [Bool.false_eq_true, if_false]
    rw [ih t (fun d hd => hl d (List.mem_cons_of_mem _ hd))]
    simp

theorem jsReplaceFirst_fire (pat t rep : List Char) :
    jsReplaceFirst (pat ++ t) pat rep = rep ++ t := by
  cases hp : pat with
  | nil =>
    cases t with
    | nil => simp [jsReplaceFirst, List.isPrefixOf]
    | cons c cs => simp [jsReplaceFirst, List.isPrefixOf]
  | cons p ps =>
    have hpre : (p :: ps).isPrefixOf ((p :: ps) ++ t) = true := by
      rw [List.isPrefixOf_iff_prefix]
      exact List.prefix_append _ t
    rw [List.cons_append, jsReplaceFirst, ← List.cons_append, hpre]
    simp [List.drop_left]

theorem prefix_align :
    ∀ (n m t : List Char), (∀ c ∈ m, c ≠ '}') → (∀ c ∈ n, c ≠ '}') →
      (n ++ ['}']) <+: (m ++ '}' :: t) → n = m := by
  intro n
  induction n with
  | nil =>
    intro m t hm _ h
    cases m with
    | nil => rfl
    | cons c m' =>
      obtain ⟨s, hs⟩ := h
      simp at hs
      exact absurd hs.1.symm (hm c (by simp))
  | cons a n' ih =>
    intro m t hm hn h
    cases m with
    | nil =>
      obtain ⟨s, hs⟩ := h
      simp at hs
      exact absurd hs.1 (hn a (by simp))
    | cons c m' =>
      obtain ⟨s, hs⟩ := h
      simp at hs
      obtain ⟨rfl, hs2⟩ := hs
      have := ih m' t (fun d hd => hm d (by simp [hd])) (fun d hd => hn d (by simp [hd]))
        ⟨s, by simpa using hs2⟩
      rw [this]

theorem jsReplaceFirst_render (n rep : List Char) (hn : BraceFree n) :
    ∀ (parts : List TemplatePart), partsWF parts = true →
      jsReplaceFirst (renderTemplate parts) ('{' :: (n ++ ['}'])) rep
        = renderTemplate (substFirstParam n rep parts) := by
  intro parts
  induction parts with
  | nil =>
    intro _
    simp [renderTemplate, substFirstParam, jsReplaceFirst, List.isPrefixOf]
  | cons part rest ih =>
    intro hwf
    cases part with
    | lit s =>
      rw [partsWF, Bool.and_eq_true] at hwf
      have hs : BraceFree s := (braceFreeB_iff s).mp hwf.1
      show jsReplaceFirst (s ++ renderTemplate rest) _ _ = _
      rw [jsReplaceFirst_skip '{' (n ++ ['}']) rep s (renderTemplate rest)
          (fun c hc => (hs c hc).1)]
      rw [ih hwf.2]
      rfl
    | param m =>
      rw [partsWF, Bool.and_eq_true] at hwf
      have hm : BraceFree m := (braceFreeB_iff m).mp hwf.1
      by_cases hmn : m = n
      · subst hmn
        show jsReplaceFirst ('{' :: (m ++ '}' :: renderTemplate rest)) _ _ = _
        have hshape : ('{' :: (m ++ '}' :: renderTemplate rest))
            = ('{' :: (m ++ ['}'])) ++ renderTemplate rest := by simp
        rw [hshape, jsReplaceFirst_fire]
        simp [substFirstParam, renderTemplate]
      · have hnp : ('{' :: (n ++ ['}'])).isPrefixOf
            ('{' :: (m ++ '}' :: renderTemplate rest)) = false := by
          by_contra hcon
          rw [Bool.not_eq_false, List.isPrefixOf_iff_prefix, List.cons_prefix_cons] at hcon
          have halign := prefix_align n m (renderTemplate rest)
            (fun c hc => (hm c hc).2) (fun c hc => (hn c hc).2) hcon.2
          exact hmn halign.symm
        show jsReplaceFirst ('{' :: (m ++ '}' :: renderTemplate rest)) _ _ = _
        rw [jsReplaceFirst, hnp]
        simp only [Bool.false_eq_true, if_false]
        rw [jsReplaceFirst_skip '{' (n ++ ['}']) rep m ('}' :: renderTemplate rest)
          (fun c hc => (hm c hc).1)]
        have hstep : jsReplaceFirst ('}' :: renderTemplate rest) ('{' :: (n ++ ['}'])) rep
            = '}' :: jsReplaceFirst (renderTemplate rest) ('{' :: (n ++ ['}'])) rep := by
          have := jsReplaceFirst_skip '{' (n ++ ['}']) rep ['}'] (renderTemplate rest)
            (by intro c hc; simp at hc; subst hc; decide)
          simpa using this
        rw [hstep, ih hwf.2]
        show _ = renderTemplate (substFirstParam n rep (.param m :: rest))
        rw [substFirstParam, if_neg hmn, renderTemplate]

theorem substFirstParam_WF (n rep : List Char) (hrep : braceFreeB rep = true) :
    ∀ parts, partsWF parts = true → partsWF (substFirstParam n rep parts) = true := by
  intro parts
  induction parts with
  | nil => intro _; rfl
  | cons part rest ih =>
    intro hwf
    cases part with
    | lit s =>
      rw [partsWF, Bool.and_eq_true] at hwf
      rw [substFirstParam, partsWF, Bool.and_eq_true]
      exact ⟨hwf.1, ih hwf.2⟩
    | param m =>
      rw [partsWF, Bool.and_eq_true] at hwf
      rw [substFirstParam]
      by_cases hmn : m = n
      · rw [if_pos hmn, partsWF, Bool.and_eq_true]
        exact ⟨hrep, hwf.2⟩
      · rw [if_neg hmn, partsWF, Bool.and_eq_true]
        exact ⟨hwf.1, ih hwf.2⟩

theorem substAllParams_render (ps : List Param)
    (hnames : ∀ p ∈ ps, braceFreeB p.name.toList = true) :
    ∀ parts, partsWF parts = true →
      ps.foldl (fun u p =>
          jsReplaceFirst u ('{' :: (p.name.toList ++ ['}'])) (encodeURIComponent p.value.toList))
        (renderTemplate parts)
        = renderTemplate (substAllParams ps parts) := by
  induction ps with
  | nil => intro parts _; rfl
  | cons p ps ih =>
    intro parts hwf
    rw [List.foldl_cons, substAllParams, List.foldl_cons]
    rw [jsReplaceFirst_render p.name.toList (encodeURIComponent p.value.toList)
      ((braceFreeB_iff _).mp (hnames p (by simp))) parts hwf]
    exact ih (fun q hq => hnames q (by simp [hq]))
      (substFirstParam p.name.toList (encodeURIComponent p.value.toList) parts)
      (substFirstParam_WF _ _ ((braceFreeB_iff _).mpr (encodeURIComponent_braceFree _)) parts hwf)

theorem paramNames_substFirstParam_sublist (n rep : List Char) :
    ∀ parts, List.Sublist (paramNames (substFirstParam n rep parts)) (paramNames parts) := by
  intro parts
  induction parts with
  | nil => exact List.Sublist.refl _
  | cons part rest ih =>
    cases part with
    | lit s => exact ih
    | param m =>
      rw [substFirstParam]
      by_cases hmn : m = n
      · rw [if_pos hmn]
        exact List.sublist_cons_of_sublist m (List.Sublist.refl _)
      · rw [if_neg hmn]
        exact List.Sublist.cons₂ m ih

theorem not_mem_paramNames_substFirstParam (n rep : List Char) :
    ∀ parts, (paramNames parts).Nodup → n ∉ paramNames (substFirstParam n rep parts) := by
  intro parts
  induction parts with
  | nil => intro _ h; simp [substFirstParam, paramNames] at h
  | cons part rest ih =>
    intro hnd
    cases part with
    | lit s => exact ih hnd
    | param m =>
      rw [paramNames, List.nodup_cons] at hnd
      rw [substFirstParam]
      by_cases hmn : m = n
      · rw [if_pos hmn]
        subst hmn
        exact fun h => hnd.1 h
      · rw [if_neg hmn, paramNames, List.mem_cons]
        rintro (rfl | h)
        · exact hmn rfl
        · exact ih hnd.2 h

theorem mem_paramNames_substFirstParam (n rep m : List Char) :
    ∀ parts, m ∈ paramNames (substFirstParam n rep parts) → m ∈ paramNames parts := by
  intro parts h
  exact (paramNames_substFirstParam_sublist n rep parts).mem h

theorem substAllParams_no_params (ps : List Param) :
    ∀ parts, (paramNames parts).Nodup →
      (∀ m ∈ paramNames parts, m ∈ ps.map (fun p => p.name.toList)) →
      paramNames (substAllParams ps parts) = [] := by
  induction ps with
  | nil =>
    intro parts _ hall
    rw [substAllParams, List.foldl_nil]
    rw [List.eq_nil_iff_forall_not_mem]
    intro m hm
    simpa using hall m hm
  | cons p ps ih =>
    intro parts hnd hall
    rw [substAllParams, List.foldl_cons]
    have hstep := ih (substFirstParam p.name.toList (encodeURIComponent p.value.toList) parts)
      ((paramNames_substFirstParam_sublist _ _ parts).nodup hnd)
      (by
        intro m hm
        have hmem := mem_paramNames_substFirstParam _ _ m parts hm
        have := hall m hmem
        simp only [List.map_cons, List.mem_cons] at this
        rcases this with heq | h
        · exfalso
          subst heq
          exact not_mem_paramNames_substFirstParam _ _ parts hnd hm
        · exact h)
    rw [substAllParams] at hstep
    exact hstep

theorem renderTemplate_braceFree :
    ∀ parts, partsWF parts = true → paramNames parts = [] →
      BraceFree (renderTemplate parts) := by
  intro parts
  induction parts with
  | nil => intro _ _ c hc; simp [renderTemplate] at hc
  | cons part rest ih =>
    intro hwf hp
    cases part with
    | lit s =>
      rw [partsWF, Bool.and_eq_true] at hwf
      rw [renderTemplate]
      intro c hc
      rw [List.mem_append] at hc
      rcases hc with hc | hc
      · exact (braceFreeB_iff s).mp hwf.1 c hc
      · exact ih hwf.2 hp c hc
    | param m => simp [paramNames] at hp

theorem substAllParams_WF (ps : List Param) :
    ∀ parts, partsWF parts = true → partsWF (substAllParams ps parts) = true := by
  induction ps with
  | nil => intro parts hwf; exact hwf
  | cons p ps ih =>
    intro parts hwf
    rw [substAllParams, List.foldl_cons]
    have := ih (substFirstParam p.name.toList (encodeURIComponent p.value.toList) parts)
      (substFirstParam_WF _ _ ((braceFreeB_iff _).mpr (encodeURIComponent_braceFree _)) parts hwf)
    rw [substAllParams] at this
    exact this

theorem buildPathUrl_substitutes (server path : String) (parameters : List Param)
    (parts : List TemplatePart)
    (hrender : stripTrailingSlash server.toList ++ path.toList = renderTemplate parts)
    (hwf : partsWF parts = true)
    (hnd : (paramNames parts).Nodup)
    (hnames : ∀ p ∈ parameters.filter (fun p => p.type == "path"),
      braceFreeB p.name.toList = true)
    (hall : ∀ m ∈ paramNames parts,
      m ∈ (parameters.filter (fun p => p.type == "path")).map (fun p => p.name.toList)) :
    buildPathUrl server path parameters
      = renderTemplate (substAllParams (parameters.filter (fun p => p.type == "path")) parts)
    ∧ BraceFree (buildPathUrl server path parameters) := by
  have hmain : buildPathUrl server path parameters
      = renderTemplate (substAllParams (parameters.filter (fun p => p.type == "path")) parts) := by
    rw [buildPathUrl]
    rw [show (stripTrailingSlash server.toList ++ path.toList) = renderTemplate parts from hrender]
    exact substAllParams_render _ hnames parts hwf
  refine ⟨hmain, ?_⟩
  rw [hmain]
  exact renderTemplate_braceFree _ (substAllParams_WF _ parts hwf)
    (substAllParams_no_params _ parts hnd hall)

/-! ### Helper lemmas for the synthesis claims -/

theorem truthy_of_getField_isSome (j : Json) (k : String)
    (h : (getField j k).isSome) : j.truthy = true := by
  cases j <;> simp [getField, Json.truthy] at h ⊢

theorem jsSet_append (acc : List (String × Option Json)) (k : String) (v : Option Json)
    (h : ∀ a ∈ acc, a.1 ≠ k) : jsSet acc k v = acc ++ [(k, v)] := by
  rw [jsSet, if_neg]
  simp only [List.any_eq_true, not_exists, not_and]
  intro a ha
  simpa using h a ha

theorem foldl_jsSet_eq_append (now : String) :
    ∀ (kvs : List (String × Json)) (acc : List (String × Option Json)),
      (∀ k ∈ kvs.map Prod.fst, ∀ a ∈ acc, a.1 ≠ k) → (kvs.map Prod.fst).Nodup →
      kvs.foldl (fun acc kp => jsSet acc kp.1 (samplePropValue kp.2 now)) acc
        = acc ++ kvs.map (fun kp => (kp.1, samplePropValue kp.2 now)) := by
  intro kvs
  induction kvs with
  | nil => intro acc _ _; simp
  | cons kp rest ih =>
    intro acc hdisj hnd
    rw [List.foldl_cons, jsSet_append acc kp.1 _ (hdisj kp.1 (by simp))]
    rw [List.map_cons, List.nodup_cons] at hnd
    have hstep := ih (acc ++ [(kp.1, samplePropValue kp.2 now)])
      (by
        intro k hk a ha
        rw [List.mem_append] at ha
        rcases ha with ha | ha
        · exact hdisj k (by simp [hk]) a ha
        · simp at ha
          subst ha
          intro hkk
          exact hnd.1 (hkk ▸ hk))
      hnd.2
    rw [hstep, List.map_cons]
    simp

theorem sampleBodyOf_obj (kvs : List (String × Json)) (now : String)
    (hnd : (kvs.map Prod.fst).Nodup) :
    sampleBodyOf (Json.obj kvs) now
      = kvs.map (fun kp => (kp.1, samplePropValue kp.2 now)) := by
  rw [sampleBodyOf]
  show kvs.foldl _ [] = _
  rw [foldl_jsSet_eq_append now kvs [] (by intro k _ a ha; simp at ha) hnd]
  simp

/-! ### The claims -/

/-- C1: the spec requires synthesis to fail with an unknown-reference
error when a request-body `$ref` names a schema absent from
`components.schemas`; the code instead silently produces the empty-object
body. This theorem evaluates the embedded generator at such an input:
the schema references `Missing`, only `Pet` is declared, and the result
is the empty-object body `"{}"` rather than any failure. -/
theorem c1_unknown_ref_yields_empty_object_body :
    generateRequestBody
      (Json.obj [("components", Json.obj [("schemas",
        Json.obj [("Pet", Json.obj [("type", Json.str "object")])])])])
      (Json.obj [("requestBody", Json.obj [("content", Json.obj [("application/json",
        Json.obj [("schema", Json.obj [("$ref", Json.str "#/components/schemas/Missing")])])])])])
      "T" = some "{}" := by
  rfl

/-- C4 (amended): a property schema's `example` is returned exactly
whenever it is defined, falsy values included; the top-level request-body
schema's `example` is returned exactly (serialized) only when it is
truthy — the source guards it with a truthiness test, so falsy top-level
examples are skipped. -/
theorem c4_example_precedence :
    (∀ (prop : Json) (now : String) (v : Json), getField prop "example" = some v →
      samplePropValue prop now = some v) ∧
    (∀ (spec op : Json) (now : String) (s ex : Json),
      requestBodySchemaOf op = some s → getField s "example" = some ex →
      ex.truthy = true →
      generateRequestBody spec op now = some (stringifyJson ex 0)) := by
  constructor
  · intro prop now v hv
    rw [samplePropValue, if_pos]
    · exact hv
    · rw [hv]
      rfl
  · intro spec op now s ex hs hex hext
    have hst : s.truthy = true := truthy_of_getField_isSome s "example" (by rw [hex]; rfl)
    simp [generateRequestBody, hs, hex, hst, hext, truthyO]

/-- C4 witness: the first part applied to a property whose example is the
falsy 0, the second to a top-level schema with the truthy example 7. -/
theorem c4_example_precedence_witness :
    samplePropValue (Json.obj [("example", Json.num 0)]) "T" = some (Json.num 0) ∧
    generateRequestBody (Json.obj [])
      (Json.obj [("requestBody", Json.obj [("content", Json.obj [("application/json",
        Json.obj [("schema", Json.obj [("example", Json.num 7)])])])])])
      "T" = some "7" := by
  constructor
  · exact c4_example_precedence.1 (Json.obj [("example", Json.num 0)]) "T" (Json.num 0) rfl
  · have := c4_example_precedence.2 (Json.obj [])
      (Json.obj [("requestBody", Json.obj [("content", Json.obj [("application/json",
        Json.obj [("schema", Json.obj [("example", Json.num 7)])])])])])
      "T" (Json.obj [("example", Json.num 7)]) (Json.num 7) rfl rfl rfl
    rw [this]
    rfl

/-- C4 counterexample: a top-level request-body schema whose `example` is
the falsy value 0 is not returned verbatim — the generator skips it and
produces the empty-object body instead of "0". -/
theorem c4_falsy_top_level_example_ignored :
    getField (Json.obj [("example", Json.num 0)]) "example" = some (Json.num 0) ∧
    generateRequestBody (Json.obj [])
      (Json.obj [("requestBody", Json.obj [("content", Json.obj [("application/json",
        Json.obj [("schema", Json.obj [("example", Json.num 0)])])])])])
      "T" = some "{}" ∧
    (some "{}" : Option String) ≠ some (stringifyJson (Json.num 0) 0) := by
  refine ⟨rfl, rfl, ?_⟩
  decide

/-- C5 (amended): for a number/integer property with no example, the
synthesized value is the declared `minimum` when that minimum is truthy
(i.e. nonzero), and otherwise the number 1 — the source chains the
fallbacks with `||`, so a declared minimum of 0 is skipped, contrary to
the claim's "including minimum equal to 0". -/
theorem c5_numeric_leaf_rule (prop : Json) (now : String)
    (hex : getField prop "example" = none)
    (hty : getField prop "type" = some (Json.str "integer") ∨
      getField prop "type" = some (Json.str "number")) :
    samplePropValue prop now
      = (if truthyO (getField prop "minimum") then getField prop "minimum"
         else some (Json.num 1)) := by
  rcases hty with hty | hty <;>
    simp [samplePropValue, hex, hty, strictEqStr, jsOrO, truthyO]

/-- C5 witness: an integer property with minimum 3 synthesizes to 3. -/
theorem c5_numeric_leaf_rule_witness :
    samplePropValue (Json.obj [("type", Json.str "integer"), ("minimum", Json.num 3)]) "T"
      = some (Json.num 3) := by
  have := c5_numeric_leaf_rule
    (Json.obj [("type", Json.str "integer"), ("minimum", Json.num 3)]) "T" rfl (Or.inl rfl)
  rw [this]
  rfl

/-- C5 counterexample: an integer property declaring `minimum: 0` (no
example, no enum) synthesizes to 1, not to the declared minimum 0. -/
theorem c5_minimum_zero_ignored :
    getField (Json.obj [("type", Json.str "integer"), ("minimum", Json.num 0)]) "minimum"
      = some (Json.num 0) ∧
    samplePropValue (Json.obj [("type", Json.str "integer"), ("minimum", Json.num 0)]) "T"
      = some (Json.num 1) ∧
    (some (Json.num 1) : Option Json) ≠ some (Json.num 0) := by
  refine ⟨rfl, rfl, ?_⟩
  intro h
  injection h with h
  injection h with h
  exact absurd h (by norm_num)

/-- C3 (amended): synthesis of an object schema's properties is
single-level: the sample body assigns, to each declared property name,
the value of the per-property leaf rule applied to that property's own
schema — and that leaf rule maps a property of type object (without an
explicit example) to the empty object, regardless of any nested
`properties` it declares; nested objects are not synthesized
recursively. -/
theorem c3_single_level_synthesis (now : String) :
    (∀ kvs : List (String × Json), (kvs.map Prod.fst).Nodup →
      sampleBodyOf (Json.obj kvs) now = kvs.map (fun kp => (kp.1, samplePropValue kp.2 now))) ∧
    (∀ prop : Json, getField prop "example" = none →
      getField prop "type" = some (Json.str "object") →
      samplePropValue prop now = some (Json.obj [])) := by
  constructor
  · intro kvs hnd
    exact sampleBodyOf_obj kvs now hnd
  · intro prop hex hty
    simp [samplePropValue, hex, hty, strictEqStr]

/-- C3 witness: one object-typed property (which itself declares a
`name` property) synthesizes to the empty object. -/
theorem c3_single_level_synthesis_witness :
    ((["child"] : List String).Nodup) ∧
    sampleBodyOf (Json.obj [("child", Json.obj [("type", Json.str "object"),
        ("properties", Json.obj [("name", Json.obj [("type", Json.str "string")])])])]) "T"
      = [("child", some (Json.obj []))] := by
  refine ⟨by decide, ?_⟩
  have h1 := (c3_single_level_synthesis "T").1
    [("child", Json.obj [("type", Json.str "object"),
        ("properties", Json.obj [("name", Json.obj [("type", Json.str "string")])])])]
    (by decide)
  have h2 := (c3_single_level_synthesis "T").2
    (Json.obj [("type", Json.str "object"),
        ("properties", Json.obj [("name", Json.obj [("type", Json.str "string")])])])
    rfl rfl
  rw [h1, List.map_cons, List.map_nil, h2]

/-- C3 counterexample: a property of type object that declares its own
`properties` synthesizes to the empty object, not to the recursively
synthesized object the claim describes. -/
theorem c3_nested_object_not_recursive :
    samplePropValue (Json.obj [("type", Json.str "object"),
        ("properties", Json.obj [("name", Json.obj [("type", Json.str "string")])])]) "T"
      = some (Json.obj []) ∧
    Json.obj [] ≠ Json.obj [("name", Json.str "string")] := by
  refine ⟨rfl, ?_⟩
  intro h
  injection h with h
  simp at h

/-- C6 (amended): the source substitutes, per path binding, only the
FIRST occurrence of its placeholder (JavaScript `String.replace` with a
string pattern), so the claim holds once templates repeat no placeholder
name: for every path template that renders from a structured template
whose placeholder names are pairwise distinct and all bound by
path-location bindings (with brace-free binding names), the built URL is
the template with each placeholder replaced by its URL-encoded value,
and it contains no brace characters — no unresolved placeholder
remains. -/
theorem c6_substitution_complete (server path : String) (parameters : List Param)
    (parts : List TemplatePart)
    (hrender : stripTrailingSlash server.toList ++ path.toList = renderTemplate parts)
    (hwf : partsWF parts = true)
    (hnd : (paramNames parts).Nodup)
    (hnames : ∀ p ∈ parameters.filter (fun p => p.type == "path"),
      braceFreeB p.name.toList = true)
    (hall : ∀ m ∈ paramNames parts,
      m ∈ (parameters.filter (fun p => p.type == "path")).map (fun p => p.name.toList)) :
    buildPathUrl server path parameters
      = renderTemplate (substAllParams (parameters.filter (fun p => p.type == "path")) parts)
    ∧ BraceFree (buildPathUrl server path parameters) :=
  buildPathUrl_substitutes server path parameters parts hrender hwf hnd hnames hall

/-- C6 witness: the petstore scenario — template `/pet/{petId}` with the
single binding `petId=10` builds the fully substituted, brace-free URL. -/
theorem c6_substitution_complete_witness :
    buildPathUrl "https://petstore3.swagger.io/api/v3" "/pet/{petId}"
        [⟨"petId", "10", "path"⟩]
      = "https://petstore3.swagger.io/api/v3/pet/10".toList ∧
    BraceFree (buildPathUrl "https://petstore3.swagger.io/api/v3" "/pet/{petId}"
        [⟨"petId", "10", "path"⟩]) := by
  have h := c6_substitution_complete "https://petstore3.swagger.io/api/v3" "/pet/{petId}"
    [⟨"petId", "10", "path"⟩]
    [.lit "https://petstore3.swagger.io/api/v3/pet/".toList, .param "petId".toList]
    rfl rfl (by decide) (by decide) (by decide)
  exact ⟨h.1.trans rfl, h.2⟩

/-- C6 counterexample: with a placeholder name occurring twice —
`/a/{id}/b/{id}` with the matching binding `id=5` — only the first
occurrence is substituted and the built URL still contains the
unresolved `{id}` placeholder, contradicting the claim. -/
theorem c6_duplicate_placeholder_unresolved :
    (stripTrailingSlash "".toList ++ "/a/{id}/b/{id}".toList
      = renderTemplate [.lit "/a/".toList, .param "id".toList, .lit "/b/".toList,
          .param "id".toList]) ∧
    (∀ m ∈ paramNames [TemplatePart.lit "/a/".toList, .param "id".toList,
          .lit "/b/".toList, .param "id".toList],
      m ∈ ([⟨"id", "5", "path"⟩] : List Param).map (fun p => p.name.toList)) ∧
    buildPathUrl "" "/a/{id}/b/{id}" [⟨"id", "5", "path"⟩] = "/a/5/b/{id}".toList ∧
    '{' ∈ buildPathUrl "" "/a/{id}/b/{id}" [⟨"id", "5", "path"⟩] := by
  refine ⟨rfl, by decide, rfl, by decide⟩

/-- C2 (amended): for every completed HTTP exchange, the recorded
duration is the wall-clock milliseconds from request start to the
instant the fetch promise resolves (response headers available) — the
source takes `Date.now() - startTime` immediately after `await fetch`,
BEFORE headers are copied and the body is decoded, not after body
materialization as the claim states. -/
theorem c2_duration_measured_at_fetch_resolution (st : SessionState)
    (status : Nat) (statusText : String) (hdrs : List (String × String))
    (jsonResult : Except Unit Json) (textResult : Except Unit String) (tl : Timeline)
    (h1 : st.selectedServer ≠ "") (h2 : st.selectedPath ≠ "") (h3 : st.selectedMethod ≠ "") :
    ∃ r : ApiResponse,
      (executeRequest st (.success status statusText hdrs jsonResult textResult) tl).1.response
        = some r ∧ r.duration = tl.tFetchResolved - tl.tStart := by
  rw [executeRequest.eq_def, if_neg (by simp [h1, h2, h3])]
  exact ⟨_, rfl, rfl⟩

/-- C2 witness: a concrete completed exchange records duration 5, the
gap from start (0) to fetch resolution (5). -/
theorem c2_duration_measured_at_fetch_resolution_witness :
    ∃ r : ApiResponse,
      (executeRequest ⟨"https://s", "/p", "get", [], "", none, false⟩
          (.success 200 "OK" [] (.error ()) (.ok "hi")) ⟨0, 5, 9, 0⟩).1.response
        = some r ∧ r.duration = (5 : Int) - 0 :=
  c2_duration_measured_at_fetch_resolution
    ⟨"https://s", "/p", "get", [], "", none, false⟩ 200 "OK" [] (.error ()) (.ok "hi")
    ⟨0, 5, 9, 0⟩ (by decide) (by decide) (by decide)

/-- C2 counterexample: in a run whose timeline is start 0, fetch
resolution 5, body decoded 9 (a valid ordering), the recorded duration
is 5, not the 9 milliseconds from start to full response
materialization that the claim asserts. -/
theorem c2_duration_not_after_decode :
    ((executeRequest ⟨"https://s", "/p", "get", [], "", none, false⟩
        (.success 200 "OK" [] (.error ()) (.ok "hi"))
        ⟨0, 5, 9, 0⟩).1.response.map ApiResponse.duration = some 5) ∧
    (0 : Int) ≤ 5 ∧ (5 : Int) ≤ 9 ∧
    (Timeline.mk 0 5 9 0).tBodyDecoded - (Timeline.mk 0 5 9 0).tStart = 9 ∧
    (some (5 : Int) ≠ some ((Timeline.mk 0 5 9 0).tBodyDecoded - (Timeline.mk 0 5 9 0).tStart)) := by
  refine ⟨rfl, by decide, by decide, rfl, by decide⟩

/-- C7: `execute` never throws — it is a total function into session
states — and every transport-level failure is normalized into a record
with status 0, status text "Network Error", empty headers, the failure's
description as body (the thrown Error's message, or the fixed fallback
text when a non-Error was thrown), and a duration that is non-negative
whenever the clock did not run backwards during the call. -/
theorem c7_network_failure_normalized (st : SessionState) (message : Option String)
    (tl : Timeline) (h1 : st.selectedServer ≠ "") (h2 : st.selectedPath ≠ "")
    (h3 : st.selectedMethod ≠ "") (hmono : tl.tStart ≤ tl.tCatch) :
    ∃ r : ApiResponse,
      (executeRequest st (.failure message) tl).1.response = some r ∧
      r.status = 0 ∧ r.statusText = "Network Error" ∧ r.headers = [] ∧
      r.body = message.getD "Unknown error occurred" ∧ 0 ≤ r.duration := by
  rw [executeRequest.eq_def, if_neg (by simp [h1, h2, h3])]
  refine ⟨_, rfl, rfl, rfl, rfl, rfl, ?_⟩
  show (0 : Int) ≤ tl.tCatch - tl.tStart
  omega

/-- C7 witness: an unreachable host (failure with message "Failed to
fetch") at a concrete state and timeline. -/
theorem c7_network_failure_normalized_witness :
    ∃ r : ApiResponse,
      (executeRequest ⟨"https://unreachable.example", "/p", "get", [], "", none, false⟩
          (.failure (some "Failed to fetch")) ⟨10, 10, 10, 14⟩).1.response = some r ∧
      r.status = 0 ∧ r.statusText = "Network Error" ∧ r.headers = [] ∧
      r.body = (some "Failed to fetch").getD "Unknown error occurred" ∧ 0 ≤ r.duration :=
  c7_network_failure_normalized
    ⟨"https://unreachable.example", "/p", "get", [], "", none, false⟩
    (some "Failed to fetch") ⟨10, 10, 10, 14⟩ (by decide) (by decide) (by decide) (by decide)

/-- C10: when the selected server, path or method is the empty string,
`executeRequest` returns before any effect: no request is handed to
`fetch` and the session state — response record, parameter bindings and
request-body text included — is returned unchanged. -/
theorem c10_selection_guard_no_effect (st : SessionState) (outcome : FetchOutcome)
    (tl : Timeline)
    (h : st.selectedServer = "" ∨ st.selectedPath = "" ∨ st.selectedMethod = "") :
    executeRequest st outcome tl = (st, none) := by
  rw [executeRequest.eq_def, if_pos h]

/-- C10 witness: a concrete session with an empty selected server is
returned untouched and no request is issued. -/
theorem c10_selection_guard_no_effect_witness :
    executeRequest ⟨"", "/p", "get", [⟨"a", "b", "query"⟩], "body", none, true⟩
        (.failure none) ⟨0, 0, 0, 0⟩
      = (⟨"", "/p", "get", [⟨"a", "b", "query"⟩], "body", none, true⟩, none) :=
  c10_selection_guard_no_effect
    ⟨"", "/p", "get", [⟨"a", "b", "query"⟩], "body", none, true⟩
    (.failure none) ⟨0, 0, 0, 0⟩ (Or.inl rfl)

/-- C8 (amended): the two cited producers of a SpecDocument enforce only
a weakened marker invariant. On the upload path, every document
`FileUpload.parseSpec` accepts carries AT LEAST ONE truthy version
marker (not "exactly one": a document carrying both `openapi` and
`swagger` is accepted), and a truthy object with neither marker fails
with the missing-version error. On the editor path the marker check of
`YamlEditor.validateSpec` is gated on the value being an object: a
truthy object with neither marker is reported invalid and
`handleEditorChange` commits nothing — but a truthy non-object value
bypasses every structural check, so the editor path can commit a
markerless scalar. -/
theorem c8_markers_on_both_paths :
    (∀ (o : Option Json) (j : Json), parseSpec o = .ok j →
      (truthyO (getField j "openapi") || truthyO (getField j "swagger")) = true) ∧
    (∀ j : Json, (j.truthy && jsTypeofObject j) = true →
      (truthyO (getField j "openapi") || truthyO (getField j "swagger")) = false →
      parseSpec (some j) = .error .missingVersion) ∧
    (∀ (content : String) (j : Json), jsTrim content ≠ "" →
      (j.truthy && jsTypeofObject j) = true →
      (truthyO (getField j "openapi") || truthyO (getField j "swagger")) = false →
      (validateSpec content (some j)).isValid = false ∧
      ∀ (app : AppState) (ed : EditorState),
        (handleEditorChange app ed content (some j)).1 = app) := by
  refine ⟨?_, ?_, ?_⟩
  · intro o j h
    match o with
    | none => simp [parseSpec] at h
    | some parsed =>
      rw [parseSpec] at h
      split_ifs at h with hobj hmark
      injection h with h
      subst h
      exact hmark
  · intro j hobj hmark
    rw [parseSpec, if_neg (by simp [hobj]), if_pos (by simp [hmark])]
  · intro content j hc hobj hmark
    have hinv : (validateSpec content (some j)).isValid = false := by
      rw [validateSpec.eq_def, if_neg hc]
      simp [hobj, hmark]
    refine ⟨hinv, ?_⟩
    intro app ed
    simp only [handleEditorChange, hinv]
    simp

/-- C8 witness: a single-marker document parses; a markerless truthy
object fails the upload path with the missing-version error, and on the
editor path the same markerless object is reported invalid and leaves
the viewer state unchanged. -/
theorem c8_markers_on_both_paths_witness :
    parseSpec (some (Json.obj [("openapi", Json.str "3.0.0")]))
      = .ok (Json.obj [("openapi", Json.str "3.0.0")]) ∧
    (truthyO (getField (Json.obj [("openapi", Json.str "3.0.0")]) "openapi") ||
      truthyO (getField (Json.obj [("openapi", Json.str "3.0.0")]) "swagger")) = true ∧
    parseSpec (some (Json.obj [("info", Json.obj [])])) = .error .missingVersion ∧
    (validateSpec "info: x" (some (Json.obj [("info", Json.obj [])]))).isValid = false ∧
    (handleEditorChange ⟨"old", some (Json.obj []), "viewer"⟩ ⟨"old", [], true⟩
        "info: x" (some (Json.obj [("info", Json.obj [])]))).1
      = ⟨"old", some (Json.obj []), "viewer"⟩ := by
  refine ⟨rfl, ?_, ?_, ?_, ?_⟩
  · exact c8_markers_on_both_paths.1 (some (Json.obj [("openapi", Json.str "3.0.0")]))
      (Json.obj [("openapi", Json.str "3.0.0")]) rfl
  · exact c8_markers_on_both_paths.2.1 (Json.obj [("info", Json.obj [])]) rfl rfl
  · exact (c8_markers_on_both_paths.2.2 "info: x" (Json.obj [("info", Json.obj [])])
      (by decide) rfl rfl).1
  · exact (c8_markers_on_both_paths.2.2 "info: x" (Json.obj [("info", Json.obj [])])
      (by decide) rfl rfl).2 ⟨"old", some (Json.obj []), "viewer"⟩ ⟨"old", [], true⟩

/-- C8 counterexample: the original invariant fails on both cited
producers — a document carrying BOTH version markers is accepted by
`parseSpec` (refuting "never both"), and a markerless YAML scalar
passes `validateSpec` with zero errors and is committed by
`handleEditorChange` as the session's parsed SpecDocument (refuting
"never neither" and "parse fails when both are absent" on the editor
path, whose structural checks are gated on the value being an
object). -/
theorem c8_original_invariant_fails :
    parseSpec (some (Json.obj [("openapi", Json.str "3.0.0"), ("swagger", Json.str "2.0")]))
      = .ok (Json.obj [("openapi", Json.str "3.0.0"), ("swagger", Json.str "2.0")]) ∧
    truthyO (getField (Json.obj [("openapi", Json.str "3.0.0"), ("swagger", Json.str "2.0")])
      "openapi") = true ∧
    truthyO (getField (Json.obj [("openapi", Json.str "3.0.0"), ("swagger", Json.str "2.0")])
      "swagger") = true ∧
    (validateSpec "hello" (some (Json.str "hello"))).isValid = true ∧
    (validateSpec "hello" (some (Json.str "hello"))).errors = [] ∧
    (handleEditorChange ⟨"old", none, "viewer"⟩ ⟨"old", [], true⟩ "hello"
        (some (Json.str "hello"))).1.parsedSpec = some (Json.str "hello") ∧
    getField (Json.str "hello") "openapi" = none ∧
    getField (Json.str "hello") "swagger" = none :=
  ⟨rfl, rfl, rfl, rfl, rfl, rfl, rfl, rfl⟩

/-- C9: a failed parse or a failed validation commits nothing — the
file-upload handler returns the viewer state unchanged when `parseSpec`
fails, and the editor-change handler leaves the viewer state (spec text
and parsed document) unchanged whenever validation reports invalid. -/
theorem c9_failed_parse_commits_nothing :
    (∀ (st : AppState) (content : String) (syntactic : Option Json) (e : ParseError),
      parseSpec syntactic = .error e → handleFileUpload st content syntactic = st) ∧
    (∀ (app : AppState) (ed : EditorState) (newValue : String) (syntactic : Option Json),
      (validateSpec newValue syntactic).isValid = false →
      (handleEditorChange app ed newValue syntactic).1 = app) := by
  constructor
  · intro st content syn e h
    rw [handleFileUpload, h]
  · intro app ed nv syn h
    simp only [handleEditorChange, h]
    simp

/-- C9 witness: a syntactically unparsable text leaves both the uploaded
state and the editor-committed state untouched. -/
theorem c9_failed_parse_commits_nothing_witness :
    parseSpec (none : Option Json) = .error .syntaxError ∧
    handleFileUpload ⟨"old", some (Json.obj []), "viewer"⟩ "new text" none
      = ⟨"old", some (Json.obj []), "viewer"⟩ ∧
    (validateSpec "not: [valid" none).isValid = false ∧
    (handleEditorChange ⟨"old", some (Json.obj []), "viewer"⟩ ⟨"old", [], true⟩
        "not: [valid" none).1
      = ⟨"old", some (Json.obj []), "viewer"⟩ := by
  refine ⟨rfl, ?_, rfl, ?_⟩
  · exact c9_failed_parse_commits_nothing.1 ⟨"old", some (Json.obj []), "viewer"⟩
      "new text" none .syntaxError rfl
  · exact c9_failed_parse_commits_nothing.2 ⟨"old", some (Json.obj []), "viewer"⟩
      ⟨"old", [], true⟩ "not: [valid" none rfl
